import Mathlib

/-!
Verification development for the Homebrew Manager server (`server.py`).

The Python source is shallowly embedded: pure string processing is
translated directly; external process execution, file I/O and wall-clock
time are passed in explicitly (outcomes of `subprocess` calls become
parameters of type `Except BrewError _`, snapshot files become `Option _`
parameters, `time.time()` becomes an explicit `now` argument, and the
mutable fields of the `BrewManager` singleton become an explicit state
record threaded through the operations).
-/

/-! ## String helpers mirroring the Python built-ins used by the source -/

/-- Drop leading whitespace characters, as one side of Python `str.strip()`. -/
def dropLeadingWS : List Char → List Char
  | [] => []
  | c :: cs => if c.isWhitespace then dropLeadingWS cs else c :: cs

/-- Python `str.strip()`: remove whitespace from both ends. -/
def pyStrip (s : String) : String :=
  ⟨dropLeadingWS ((dropLeadingWS s.data.reverse).reverse)⟩

/-- Python `str.lower()` (ASCII-adequate model via `Char.toLower`). -/
def pyLower (s : String) : String :=
  ⟨s.data.map Char.toLower⟩

/-- Python `str.split()` with no argument: split on whitespace runs,
    dropping empty fragments. -/
def pyWords (s : String) : List String :=
  (s.split Char.isWhitespace).filter (fun t => t ≠ "")

/-- Python `str.splitlines()` as used on process output (newline-separated). -/
def splitLines (s : String) : List String :=
  s.split (fun c => c == '\n')

/-- Python space-join of the command list. -/
def joinSpace (cmd : List String) : String :=
  String.intercalate (" ") cmd

/-- Does the character list `l` start with the character list `pre`? -/
def listStartsWith : List Char → List Char → Bool
  | _, [] => true
  | [], _ :: _ => false
  | a :: as, b :: bs => a == b && listStartsWith as bs

/-- Substring test on character lists: `needle` occurs somewhere in `hay`. -/
def containsSub (hay needle : List Char) : Bool :=
  (List.range (hay.length + 1)).any (fun i => listStartsWith (hay.drop i) needle)

/-- Python `needle in hay` on strings (case-sensitive). -/
def plainContains (hay needle : String) : Bool :=
  containsSub hay.data needle.data

/-- Python `needle.lower() in hay.lower()`: case-insensitive substring test,
    exactly the check used by the failure classifier. -/
def ciContains (hay needle : String) : Bool :=
  containsSub (hay.data.map Char.toLower) (needle.data.map Char.toLower)

/-! ## The error type (`BrewError`) and the one-shot Command Runner -/

/-- `BrewError` from `server.py`: message plus the two boolean facets
    (`needs_sudo`, `permission_issue`), defaulting to false. -/
structure BrewError where
  message : String
  needs_sudo : Bool
  permission_issue : Bool
deriving DecidableEq

/-- The `permission_indicators` list from `BrewManager.run`. -/
def permission_indicators : List String :=
  ["Permission denied",
   "Operation not permitted",
   "You don't have write permissions",
   "requires administrator access",
   "sudo",
   "privilege"]

/-- The `sudo_indicators` list from `BrewManager.run`. -/
def sudo_indicators : List String :=
  ["installer: Package name is",
   "requires administrator access",
   "must be run as root",
   "sudo required",
   "sudo: a terminal is required to read the password",
   "sudo: a password is required",
   "either use the -S option to read from standard input",
   "configure an askpass helper"]

/-- The `for indicator in …: if indicator.lower() in combined.lower(): flag = True; break`
    loops of `BrewManager.run`: true as soon as one indicator matches. -/
def scanIndicators (combined : String) : List String → Bool
  | [] => false
  | ind :: rest =>
    if ciContains combined ind then true else scanIndicators combined rest

/-- `combined_output` of `BrewManager.run`:
    `f"{stderr.strip()}\n{stdout.strip()}".strip()` (stderr first). -/
def combinedOutput (stdoutS stderrS : String) : String :=
  pyStrip (pyStrip stderrS ++ "\n" ++ pyStrip stdoutS)

/-- The nonzero-exit branch of `BrewManager.run`: build `combined_output`,
    scan the two indicator lists, and synthesize the enhanced message
    (elevation prefix first, then permission prefix, then the raw combined
    output, then the `Command failed` fallback naming the command). -/
def classifyFailure (cmd : List String) (stdoutS stderrS : String) : BrewError :=
  let combined := combinedOutput stdoutS stderrS
  let permission_issue := scanIndicators combined permission_indicators
  let needs_sudo := scanIndicators combined sudo_indicators
  let enhanced_message :=
    if needs_sudo || permission_issue then
      if needs_sudo then "Administrative privileges required: " ++ combined
      else "Permission issue detected: " ++ combined
    else if combined = "" then "Command failed: " ++ joinSpace cmd
    else combined
  ⟨enhanced_message, needs_sudo, permission_issue⟩

/-- Outcome of the underlying `subprocess` call inside `BrewManager.run`:
    the executable was missing, the timeout fired, or the process completed
    with an exit status and captured stdout/stderr text. -/
inductive RunOutcome where
  | notFound
  | timedOut
  | completed (returncode : Int) (stdoutS stderrS : String)

namespace BrewManager

/-- `BrewManager.run` (one-shot Command Runner), with the subprocess outcome
    passed in explicitly.  The `capture_json` success-parsing branch is not
    modelled (no claim depends on it); success returns the raw stdout. -/
def run (brew_path : String) (args : List String) (outcome : RunOutcome) :
    Except BrewError String :=
  match outcome with
  | .notFound =>
    .error ⟨"Homebrew not found. Please install Homebrew from https://brew.sh",
            false, false⟩
  | .timedOut =>
    .error ⟨"Command timed out: " ++ joinSpace (brew_path :: args), false, false⟩
  | .completed rc stdoutS stderrS =>
    if rc ≠ 0 then .error (classifyFailure (brew_path :: args) stdoutS stderrS)
    else .ok stdoutS

end BrewManager

/-- The deployed manager instance is constructed as
    `BrewManager(timeout_seconds=10 * 60)` (`server.py`, module level). -/
def deployed_timeout_seconds : Nat := 10 * 60

/-- The `BrewManager.__init__` default `cache_ttl=30`. -/
def default_cache_ttl : Int := 30

/-! ## Cache layer: in-memory tier state, TTL check, invalidation -/

/-- The mutable cache fields of the `BrewManager` instance:
    `_installed_cache`, `_installed_cache_time`, `_search_cache`.
    `α` is the installed-info payload, `σ` the per-query search payload.
    The search cache dict is modelled as an association list whose most
    recent binding for a key shadows older ones (dict overwrite). -/
structure MgrCacheState (α σ : Type) where
  installed_cache : Option α
  installed_cache_time : Int
  search_cache : List (String × Int × σ)
deriving DecidableEq

namespace BrewManager

/-- `BrewManager._cache_valid`: `(time.time() - ts) < self.cache_ttl`. -/
def cache_valid (ttl now ts : Int) : Bool :=
  now - ts < ttl

/-- `BrewManager.invalidate_caches`: clear the installed cache and the
    search cache (the timestamp field is left untouched, as in the source). -/
def invalidate_caches {α σ : Type} (st : MgrCacheState α σ) : MgrCacheState α σ :=
  MgrCacheState.mk none st.installed_cache_time []

/-- The try/except body of `BrewManager.installed_info`: run the live fetch
    (the two `brew info --installed` calls plus enrichment, whose outcome is
    the `live` parameter); on success store and return; on `BrewError` fall
    back to the durable snapshot if present (also repopulating the memory
    tier), else re-raise the original error.  The third component counts how
    many times the live fetch was invoked by this call (always 1 here). -/
def installed_fetch {α σ : Type} (st : MgrCacheState α σ) (now : Int)
    (live : Except BrewError α) (snapshot : Option α) :
    Except BrewError α × MgrCacheState α σ × Nat :=
  match live with
  | .ok d =>
    (.ok d, MgrCacheState.mk (some d) now st.search_cache, 1)
  | .error e =>
    match snapshot with
    | some c => (.ok c, MgrCacheState.mk (some c) now st.search_cache, 1)
    | none => (.error e, st, 1)

/-- `BrewManager.installed_info`: memory-tier check first (the cached dict is
    always a non-empty dict when present, so Python truthiness is `some`),
    then the fetch body.  Returns (result, new state, live-fetch count). -/
def installed_info {α σ : Type} (ttl : Int) (st : MgrCacheState α σ) (now : Int)
    (live : Except BrewError α) (snapshot : Option α) :
    Except BrewError α × MgrCacheState α σ × Nat :=
  match st.installed_cache with
  | some c =>
    if cache_valid ttl now st.installed_cache_time then (.ok c, st, 0)
    else installed_fetch st now live snapshot
  | none => installed_fetch st now live snapshot

/-- `BrewManager.outdated`: try the live structured query; on success enrich
    (the per-entry description/size enrichment is the `enrich` parameter) and
    return; on `BrewError` return the durable snapshot if present, else
    re-raise the original error unchanged. -/
def outdated {α : Type} (live : Except BrewError α) (snapshot : Option α)
    (enrich : α → α) : Except BrewError α :=
  match live with
  | .ok d => .ok (enrich d)
  | .error e =>
    match snapshot with
    | some c => .ok c
    | none => .error e

/-- `BrewManager.leaves`: on success split the output into stripped non-empty
    lines; on `BrewError` return the durable snapshot if present — and when
    no snapshot exists, fall through to `return []` (the failure is swallowed,
    never re-raised). -/
def leaves (live : Except BrewError String) (snapshot : Option (List String)) :
    Except BrewError (List String) :=
  match live with
  | .ok output =>
    .ok ((splitLines output).filterMap
      (fun line => let s := pyStrip line; if s ≠ "" then some s else none))
  | .error _ =>
    match snapshot with
    | some c => .ok c
    | none => .ok []

end BrewManager

/-! ## Orphaned-package aggregator data model -/

/-- One element of the `installed` metadata list of a formula. -/
structure InstallRecord where
  installed_as_dependency : Bool
  installed_on_request : Bool
deriving DecidableEq

/-- An installed-formula record as consumed by `BrewManager.orphaned`. -/
structure FormulaItem where
  name : String
  full_name : Option String
  desc : Option String
  versions : Option String
  installed : List InstallRecord
deriving DecidableEq

/-- The record appended to `orphaned_list` for a qualifying formula. -/
structure OrphanEntry where
  name : String
  full_name : String
  desc : Option String
  versions : Option String
  type : String
deriving DecidableEq

/-- Build the orphaned-list entry for `item`
    (`full_name` defaults to `name`, `type` is always `"formula"`). -/
def mkOrphanEntry (item : FormulaItem) : OrphanEntry :=
  ⟨item.name, item.full_name.getD item.name, item.desc, item.versions, "formula"⟩

/-- The inner loop of `BrewManager.orphaned`: every installed record must be
    dependency-installed and none may be installed-on-request (the Python
    loop breaks to `False` on the first violating record). -/
def allDependencyOnly : List InstallRecord → Bool
  | [] => true
  | inst :: rest =>
    if inst.installed_on_request then false
    else if !inst.installed_as_dependency then false
    else allDependencyOnly rest

/-- The main loop of `BrewManager.orphaned` over installed formulae:
    skip names outside the leaf set, skip items with no installed records,
    keep items whose records are all dependency-only. -/
def orphanedFormulae (leavesL : List String) : List FormulaItem → List OrphanEntry
  | [] => []
  | item :: rest =>
    if !(leavesL.contains item.name) then orphanedFormulae leavesL rest
    else if item.installed.isEmpty then orphanedFormulae leavesL rest
    else if allDependencyOnly item.installed then
      mkOrphanEntry item :: orphanedFormulae leavesL rest
    else orphanedFormulae leavesL rest

/-- The characterization the filter loop implements, as a single predicate. -/
def orphanQualifies (leavesL : List String) (item : FormulaItem) : Bool :=
  leavesL.contains item.name && !item.installed.isEmpty &&
    allDependencyOnly item.installed

/-- The result dict of `BrewManager.orphaned`. -/
structure OrphanedResult where
  formulae : List OrphanEntry
  casks : List OrphanEntry
deriving DecidableEq

namespace BrewManager

/-- `BrewManager.orphaned`: the try block runs `leaves()` (which cannot
    raise — it swallows failures) and `installed_info()` (which can); on a
    `BrewError` return the durable snapshot if present, else re-raise the
    original error; on success filter the installed formulae. -/
def orphaned (leavesResult : List String)
    (installedResult : Except BrewError (List FormulaItem))
    (snapshot : Option OrphanedResult) : Except BrewError OrphanedResult :=
  match installedResult with
  | .error e =>
    match snapshot with
    | some c => .ok c
    | none => .error e
  | .ok installed =>
    .ok ⟨orphanedFormulae leavesResult installed, []⟩

end BrewManager

/-! ## Dependency Tree Builder -/

/-- The dependency lists a `brew info --json=v2 --formula` query yields for
    one formula (missing lists default to empty, as `get(..., []) or []`). -/
structure FormulaInfo where
  dependencies : List String
  build_dependencies : List String
  test_dependencies : List String
  recommended_dependencies : List String
  optional_dependencies : List String
deriving DecidableEq

/-- The `depends_on` lists a cask info query yields. -/
structure CaskInfo where
  formula_deps : List String
  cask_deps : List String
deriving DecidableEq

/-- Oracle giving the outcome of the (successful) per-package structured-info
    queries issued by `BrewManager.dependency_tree`. -/
structure BrewInfoOracle where
  formulaInfo : String → FormulaInfo
  caskInfo : String → CaskInfo

/-- A node of the dependency tree: name, kind tag, optionality flag,
    ordered children. -/
inductive DepNode where
  | node (name type : String) (optional : Bool) (deps : List DepNode)

/-- The `(kind, name)` keys (with optionality flag) of the children a node
    expands into, in source order: for a cask, formula deps then cask deps;
    for a formula, required+build+test+recommended (non-optional) then the
    optional list (flagged optional).  Child triples are (name, kind, opt). -/
def childSpecs (O : BrewInfoOracle) (node_kind node_name : String) :
    List (String × String × Bool) :=
  if node_kind = "cask" then
    (O.caskInfo node_name).formula_deps.map (fun d => (d, "formula", false)) ++
      (O.caskInfo node_name).cask_deps.map (fun d => (d, "cask", false))
  else
    ((O.formulaInfo node_name).dependencies ++
     (O.formulaInfo node_name).build_dependencies ++
     (O.formulaInfo node_name).test_dependencies ++
     (O.formulaInfo node_name).recommended_dependencies).map
        (fun d => (d, "formula", false)) ++
      (O.formulaInfo node_name).optional_dependencies.map
        (fun d => (d, "formula", true))

/-- Expand a list of child specs in order, threading the shared visited set
    through the sequence exactly as the Python list comprehensions mutate
    the enclosing `visited` set. -/
def buildList
    (f : String → String → Bool → List (String × String) →
      Option (DepNode × List (String × String))) :
    List (String × String × Bool) → List (String × String) →
      Option (List DepNode × List (String × String))
  | [], visited => some ([], visited)
  | (d, k, o) :: rest, visited =>
    match f d k o visited with
    | none => none
    | some (n, v) =>
      match buildList f rest v with
      | none => none
      | some (ns, v2) => some (n :: ns, v2)

/-- The inner `build` closure of `BrewManager.dependency_tree`, with the
    mutable `visited` set threaded explicitly (a list used as a set) and a
    fuel parameter bounding recursion depth (`none` = fuel exhausted; the
    source recurses without a bound).  A key already in `visited` returns a
    zero-children stub without recursing; otherwise the key is added and the
    children are expanded (the type tag of a formula node is the literal
    `"formula"`, that of a cask is `"cask"`, as in the two source branches). -/
def buildF (O : BrewInfoOracle) :
    Nat → String → String → Bool → List (String × String) →
      Option (DepNode × List (String × String))
  | 0 => fun _ _ _ _ => none
  | fuel + 1 => fun node_name node_kind optional visited =>
    if (node_kind, node_name) ∈ visited then
      some (.node node_name node_kind optional [], visited)
    else
      match buildList (buildF O fuel) (childSpecs O node_kind node_name)
          ((node_kind, node_name) :: visited) with
      | none => none
      | some (children, v) =>
        some (.node node_name (if node_kind = "cask" then "cask" else "formula")
                optional children, v)

namespace BrewManager

/-- `BrewManager.dependency_tree`: a fresh empty visited set per top-level
    call, then `build(name, kind)`. -/
def dependency_tree (O : BrewInfoOracle) (fuel : Nat)
    (name : String) (kind : String) : Option DepNode :=
  (buildF O fuel name kind false []).map Prod.fst

end BrewManager

/-- A formula-info record with no dependencies at all. -/
def emptyFormulaInfo : FormulaInfo := ⟨[], [], [], [], []⟩

/-- The synthetic cyclic graph A → B → C → A (formulae only). -/
def cycleOracle : BrewInfoOracle :=
  ⟨fun n =>
      if n = "A" then ⟨["B"], [], [], [], []⟩
      else if n = "B" then ⟨["C"], [], [], [], []⟩
      else if n = "C" then ⟨["A"], [], [], [], []⟩
      else emptyFormulaInfo,
    fun _ => ⟨[], []⟩⟩

/-- The synthetic diamond graph A → {B, C} → D (formulae only). -/
def diamondOracle : BrewInfoOracle :=
  ⟨fun n =>
      if n = "A" then ⟨["B", "C"], [], [], [], []⟩
      else if n = "B" then ⟨["D"], [], [], [], []⟩
      else if n = "C" then ⟨["D"], [], [], [], []⟩
      else emptyFormulaInfo,
    fun _ => ⟨[], []⟩⟩

/-! ## Search aggregator -/

/-- One search result entry: exactly a name and a description. -/
structure SearchEntry where
  name : String
  desc : String
deriving DecidableEq

/-- The dict returned by `BrewManager.search`. -/
structure SearchResult where
  formulae : List SearchEntry
  casks : List SearchEntry
deriving DecidableEq

/-- Outcomes of the external calls `BrewManager.search` makes:
    `searchRun kind term` is the textual result of
    `run(["search", "--kind", term])`, and `infoRun kind names` the parsed
    `(name_key, desc)` pairs of `run(["info", "--json=v2", "--kind", *names])`
    (the per-item `name`/`token` key extraction happens upstream). -/
structure SearchOracles where
  searchRun : String → String → Except BrewError String
  infoRun : String → List String → Except BrewError (List (String × String))

/-- `parse_list` inside `BrewManager.search`: stripped non-empty lines not
    starting with `"==>"`. -/
def parse_list (text : String) : List String :=
  (splitLines text).filterMap (fun line =>
    let name := pyStrip line
    if name ≠ "" && !(listStartsWith name.data ("==>").data) then some name
    else none)

/-- `safe_search` inside `BrewManager.search`: a failed `brew search`
    (nonzero exit, e.g. no matches) is treated as an empty result. -/
def safe_search (O : SearchOracles) (kind term : String) : List String :=
  match O.searchRun kind term with
  | .ok text => parse_list text
  | .error _ => []

/-- Lexicographic order on character lists (models Python string `<`
    for the ASCII names involved). -/
def lexLe : List Char → List Char → Bool
  | [], _ => true
  | _ :: _, [] => false
  | a :: as, b :: bs => if a = b then lexLe as bs else decide (a < b)

/-- Insert into a sorted list of strings. -/
def sortedInsert (x : String) : List String → List String
  | [] => [x]
  | y :: ys => if lexLe x.data y.data then x :: y :: ys else y :: sortedInsert x ys

/-- Insertion sort on strings (models Python `sorted`). -/
def sortStrings : List String → List String
  | [] => []
  | x :: xs => sortedInsert x (sortStrings xs)

/-- Python `sorted(set(a) | set(b))`: deduplicated union, sorted. -/
def sortedUnion (a b : List String) : List String :=
  sortStrings (List.dedup (a ++ b))

/-- Python `set.intersection(*sets)` over a non-empty list of sets
    (the source only calls it with at least one set). -/
def interAll : List (List String) → List String
  | [] => []
  | s :: rest => rest.foldl (fun acc t => acc.filter (fun x => t.contains x)) s

/-- The candidate name lists (formulae, casks) computed by
    `BrewManager.search` before enrichment: raw-query search; for
    multi-token queries, union with the intersection of the per-token
    results (sorted sets); and the hyphen-joined fallback when the result
    is still empty. -/
def searchCandidates (O : SearchOracles) (query : String) :
    List String × List String :=
  let tokens := pyWords query
  let formulae := safe_search O ("formula") query
  let casks := safe_search O ("cask") query
  let (formulae, casks) :=
    if tokens.length > 1 then
      (sortedUnion formulae
          (interAll (tokens.map (fun t => safe_search O ("formula") t))),
       sortedUnion casks
          (interAll (tokens.map (fun t => safe_search O ("cask") t))))
    else (formulae, casks)
  if formulae.isEmpty && casks.isEmpty && tokens.length > 1 then
    (safe_search O ("formula") (String.intercalate ("-") tokens),
     safe_search O ("cask") (String.intercalate ("-") tokens))
  else (formulae, casks)

/-- `bulk_info` inside `BrewManager.search`: empty for an empty batch; on a
    `BrewError` every requested name maps to the empty description. -/
def bulk_info (O : SearchOracles) (names : List String) (kind : String) :
    List (String × String) :=
  if names.isEmpty then []
  else
    match O.infoRun kind names with
    | .ok pairs => pairs
    | .error _ => names.map (fun n => (n, ""))

/-- Python `desc_map.get(n, "")` with dict-overwrite semantics: the last
    binding of a key wins. -/
def dictGet (m : List (String × String)) (k : String) : String :=
  match m.reverse.find? (fun p => p.1 == k) with
  | some p => p.2
  | none => ""

/-- Build the enhanced entry list `[{"name": n, "desc": desc_map.get(n, "")}]`
    for the (already truncated) name batch of one kind. -/
def enhanceEntries (O : SearchOracles) (kind : String) (names : List String) :
    List SearchEntry :=
  names.map (fun n => ⟨n, dictGet (bulk_info O names kind) n⟩)

/-- `lookupAssoc c k`: the search-cache dict lookup (`_search_cache.get`),
    newest binding first. -/
def lookupAssoc {σ : Type} (c : List (String × Int × σ)) (k : String) :
    Option (Int × σ) :=
  match c with
  | [] => none
  | (k2, t, r) :: rest => if k2 = k then some (t, r) else lookupAssoc rest k

namespace BrewManager

/-- The cache-miss body of `BrewManager.search`: compute candidates, keep the
    first 20 names per kind, enrich with descriptions, store the result under
    `cache_key` with the current time. -/
def search_compute {α : Type} (O : SearchOracles) (st : MgrCacheState α SearchResult)
    (now : Int) (query cache_key : String) :
    SearchResult × MgrCacheState α SearchResult :=
  let c := searchCandidates O query
  let result : SearchResult :=
    ⟨enhanceEntries O ("formula") (c.1.take 20),
     enhanceEntries O ("cask") (c.2.take 20)⟩
  (result,
   MgrCacheState.mk st.installed_cache st.installed_cache_time
     ((cache_key, now, result) :: st.search_cache))

/-- `BrewManager.search`: per-normalized-query cache (key: lower-cased
    trimmed query) consulted first under the TTL; otherwise the compute
    body runs and repopulates the cache. -/
def search {α : Type} (ttl : Int) (O : SearchOracles)
    (st : MgrCacheState α SearchResult) (now : Int) (query : String) :
    SearchResult × MgrCacheState α SearchResult :=
  let cache_key := pyLower (pyStrip query)
  match lookupAssoc st.search_cache cache_key with
  | some (ts, cached) =>
    if cache_valid ttl now ts then (cached, st)
    else search_compute O st now query cache_key
  | none => search_compute O st now query cache_key

end BrewManager

/-- A search result respecting the 20-entry truncation per kind. -/
def boundedResult (r : SearchResult) : Prop :=
  r.formulae.length ≤ 20 ∧ r.casks.length ≤ 20

/-- Every result stored in the search cache respects the truncation. -/
def searchCacheWF (c : List (String × Int × SearchResult)) : Prop :=
  ∀ p ∈ c, boundedResult p.2.2

/-- Concrete oracles for exercising `search`: the text search succeeds with
    two names, the description enrichment always fails. -/
def plainSearchOracles : SearchOracles :=
  ⟨fun _ _ => .ok ("wget\ncurl"),
   fun _ _ => .error ⟨"info failed", false, false⟩⟩

/-! ## Helper lemmas -/

/-- The break-on-first-match indicator loop is an existential scan. -/
theorem scanIndicators_iff (combined : String) (l : List String) :
    scanIndicators combined l = true ↔ ∃ i ∈ l, ciContains combined i = true := by
  induction l with
  | nil => simp [scanIndicators]
  | cons i rest ih =>
    by_cases h : ciContains combined i = true
    · simp [scanIndicators, h]
    · simp only [scanIndicators, if_neg h, ih, List.mem_cons]
      constructor
      · rintro ⟨j, hj, hcj⟩
        exact ⟨j, Or.inr hj, hcj⟩
      · rintro ⟨j, hj | hj, hcj⟩
        · exact absurd (hj ▸ hcj) h
        · exact ⟨j, hj, hcj⟩

theorem listStartsWith_map (f : Char → Char) :
    ∀ l pre : List Char, listStartsWith l pre = true →
      listStartsWith (l.map f) (pre.map f) = true := by
  intro l pre
  induction pre generalizing l with
  | nil => intro h; cases l <;> simp [listStartsWith]
  | cons b bs ih =>
    intro h
    cases l with
    | nil => simp [listStartsWith] at h
    | cons a as =>
      simp only [listStartsWith, Bool.and_eq_true, beq_iff_eq] at h
      simp only [List.map_cons, listStartsWith, Bool.and_eq_true, beq_iff_eq]
      exact ⟨by rw [h.1], ih as h.2⟩

/-- A case-sensitive substring occurrence survives lower-casing both sides. -/
theorem containsSub_map_toLower (hay needle : List Char)
    (h : containsSub hay needle = true) :
    containsSub (hay.map Char.toLower) (needle.map Char.toLower) = true := by
  simp only [containsSub, List.any_eq_true, List.mem_range] at h ⊢
  obtain ⟨i, hi, hw⟩ := h
  refine ⟨i, by simpa using hi, ?_⟩
  rw [← List.map_drop]
  exact listStartsWith_map Char.toLower _ _ hw

/-- Literal containment (Python `needle in hay`) implies the case-insensitive
    containment check of the classifier. -/
theorem plainContains_to_ci (hay needle : String)
    (h : plainContains hay needle = true) : ciContains hay needle = true :=
  containsSub_map_toLower hay.data needle.data h

/-- Unfolding: the `permission_issue` facet is the permission-indicator scan. -/
theorem classifyFailure_permission_issue (cmd : List String) (so se : String) :
    (classifyFailure cmd so se).permission_issue =
      scanIndicators (combinedOutput so se) permission_indicators := by
  simp only [classifyFailure]

/-- Unfolding: the `needs_sudo` facet is the elevation-indicator scan. -/
theorem classifyFailure_needs_sudo (cmd : List String) (so se : String) :
    (classifyFailure cmd so se).needs_sudo =
      scanIndicators (combinedOutput so se) sudo_indicators := by
  simp only [classifyFailure]

/-- Unfolding: the enhanced message of the failure classifier. -/
theorem classifyFailure_message (cmd : List String) (so se : String) :
    (classifyFailure cmd so se).message =
      (if scanIndicators (combinedOutput so se) sudo_indicators ||
          scanIndicators (combinedOutput so se) permission_indicators then
        if scanIndicators (combinedOutput so se) sudo_indicators then
          "Administrative privileges required: " ++ combinedOutput so se
        else "Permission issue detected: " ++ combinedOutput so se
      else if combinedOutput so se = "" then "Command failed: " ++ joinSpace cmd
      else combinedOutput so se) := by
  simp only [classifyFailure]

/-- The record loop of `orphaned` checks exactly: every record is
    dependency-installed and none is on-request. -/
theorem allDependencyOnly_iff (l : List InstallRecord) :
    allDependencyOnly l = true ↔
      ∀ r ∈ l, r.installed_as_dependency = true ∧ r.installed_on_request = false := by
  induction l with
  | nil => simp [allDependencyOnly]
  | cons inst rest ih =>
    by_cases hreq : inst.installed_on_request = true
    · simp [allDependencyOnly, hreq]
    · by_cases hdep : inst.installed_as_dependency = true
      · simp [allDependencyOnly, hreq, hdep, ih,
          Bool.not_eq_true inst.installed_on_request ▸ hreq]
      · simp [allDependencyOnly, hreq, hdep]

/-- The orphaned loop is the filter by `orphanQualifies`, mapped through
    entry construction. -/
theorem orphanedFormulae_eq_filter (leavesL : List String) (l : List FormulaItem) :
    orphanedFormulae leavesL l =
      (l.filter (orphanQualifies leavesL)).map mkOrphanEntry := by
  induction l with
  | nil => simp [orphanedFormulae]
  | cons item rest ih =>
    by_cases h1 : item.name ∈ leavesL
    · by_cases h2 : item.installed = []
      · simp [orphanedFormulae, orphanQualifies, h1, h2, ih, List.filter_cons]
      · by_cases h3 : allDependencyOnly item.installed = true
        · simp [orphanedFormulae, orphanQualifies, h1, h2, h3, ih, List.filter_cons]
        · simp [orphanedFormulae, orphanQualifies, h1, h2, h3, ih, List.filter_cons]
    · simp [orphanedFormulae, orphanQualifies, h1, ih, List.filter_cons]

/-- If every binding of a description map is empty, every lookup is empty. -/
theorem dictGet_all_empty (m : List (String × String)) (k : String)
    (h : ∀ p ∈ m, p.2 = "") : dictGet m k = "" := by
  unfold dictGet
  cases hf : m.reverse.find? (fun p => p.1 == k) with
  | none => rfl
  | some p => exact h p (List.mem_reverse.mp (List.mem_of_find?_eq_some hf))

/-- A successful search-cache lookup returns a stored entry. -/
theorem lookupAssoc_mem {σ : Type} (c : List (String × Int × σ)) (k : String)
    (t : Int) (r : σ) (h : lookupAssoc c k = some (t, r)) :
    ∃ k2, (k2, t, r) ∈ c := by
  induction c with
  | nil => simp [lookupAssoc] at h
  | cons p rest ih =>
    obtain ⟨k2, t2, r2⟩ := p
    by_cases hk : k2 = k
    · simp only [lookupAssoc, if_pos hk, Option.some_inj] at h
      exact ⟨k2, by rw [← h]; exact List.mem_cons_self _ _⟩
    · simp only [lookupAssoc, if_neg hk] at h
      obtain ⟨k3, hk3⟩ := ih h
      exact ⟨k3, List.mem_cons_of_mem _ hk3⟩

/-- If the node builder only ever grows the visited set, so does a
    sequential child expansion. -/
theorem buildList_subset
    (f : String → String → Bool → List (String × String) →
      Option (DepNode × List (String × String)))
    (hf : ∀ d k o v n v2, f d k o v = some (n, v2) → v ⊆ v2) :
    ∀ keys v ns v2, buildList f keys v = some (ns, v2) → v ⊆ v2 := by
  intro keys
  induction keys with
  | nil =>
    intro v ns v2 h
    simp only [buildList, Option.some_inj] at h
    cases h
    exact fun x hx => hx
  | cons c rest ih =>
    intro v ns v2 h
    obtain ⟨d, k, o⟩ := c
    cases hb : f d k o v with
    | none => simp only [buildList, hb] at h; exact Option.noConfusion h
    | some p =>
      obtain ⟨n, v1⟩ := p
      cases hbl : buildList f rest v1 with
      | none => simp only [buildList, hb, hbl] at h; exact Option.noConfusion h
      | some q =>
        obtain ⟨ns1, v3⟩ := q
        simp only [buildList, hb, hbl, Option.some_inj] at h
        cases h
        exact fun x hx => ih v1 _ _ hbl (hf d k o v n v1 hb hx)

/-- Expanding a node never removes visited keys, and marks its own key:
    any later encounter of the same `(kind, name)` key anywhere in this
    top-level build therefore finds it in the visited set. -/
theorem buildF_subset (O : BrewInfoOracle) :
    ∀ fuel name kind opt v n v2,
      buildF O fuel name kind opt v = some (n, v2) →
        v ⊆ v2 ∧ (kind, name) ∈ v2 := by
  intro fuel
  induction fuel with
  | zero => intro name kind opt v n v2 h; exact absurd h (by simp [buildF])
  | succ f ih =>
    intro name kind opt v n v2 h
    by_cases hv : (kind, name) ∈ v
    · simp only [buildF, if_pos hv, Option.some_inj] at h
      cases h
      exact ⟨fun x hx => hx, hv⟩
    · cases hbl : buildList (buildF O f) (childSpecs O kind name)
          ((kind, name) :: v) with
      | none => simp only [buildF, if_neg hv, hbl] at h; exact Option.noConfusion h
      | some p =>
        obtain ⟨children, v3⟩ := p
        simp only [buildF, if_neg hv, hbl, Option.some_inj] at h
        cases h
        have hsub := buildList_subset (buildF O f)
          (fun d k o vv nn vv2 hh => (ih d k o vv nn vv2 hh).1) _ _ _ _ hbl
        exact ⟨fun x hx => hsub (List.mem_cons_of_mem _ hx),
               hsub (List.mem_cons_self _ _)⟩

/-- Totality of the bounded builder on a finite closed universe: with the
    visited set inside the universe and more fuel than unvisited keys, the
    build succeeds, and the visited set stays inside the universe. -/
theorem buildF_total (O : BrewInfoOracle) (U : List (String × String))
    (hclosed : ∀ p ∈ U, ∀ c ∈ childSpecs O p.1 p.2, ((c.2.1, c.1) : String × String) ∈ U) :
    ∀ fuel,
      (∀ name kind opt v, ((kind, name) : String × String) ∈ U → v.Nodup → v ⊆ U →
        U.length - v.length < fuel →
        ∃ n v2, buildF O fuel name kind opt v = some (n, v2) ∧
          v2.Nodup ∧ v2 ⊆ U ∧ v ⊆ v2)
    ∧ (∀ keys v, (∀ c ∈ keys, ((c.2.1, c.1) : String × String) ∈ U) → v.Nodup → v ⊆ U →
        U.length - v.length < fuel →
        ∃ ns v2, buildList (buildF O fuel) keys v = some (ns, v2) ∧
          v2.Nodup ∧ v2 ⊆ U ∧ v ⊆ v2) := by
  intro fuel
  induction fuel with
  | zero =>
    refine ⟨?_, ?_⟩
    · intro name kind opt v _ _ _ hlt; omega
    · intro keys v _ _ _ hlt; omega
  | succ f ih =>
    have hbuild : ∀ name kind opt v, ((kind, name) : String × String) ∈ U →
        v.Nodup → v ⊆ U → U.length - v.length < f + 1 →
        ∃ n v2, buildF O (f + 1) name kind opt v = some (n, v2) ∧
          v2.Nodup ∧ v2 ⊆ U ∧ v ⊆ v2 := by
      intro name kind opt v hkey hnd hsub hlt
      by_cases hv : (kind, name) ∈ v
      · exact ⟨.node name kind opt [], v, by simp [buildF, hv], hnd, hsub,
          fun x hx => hx⟩
      · have hnd1 : ((kind, name) :: v).Nodup := List.nodup_cons.mpr ⟨hv, hnd⟩
        have hsub1 : ((kind, name) :: v) ⊆ U := by
          intro x hx
          rcases List.mem_cons.mp hx with rfl | hx
          · exact hkey
          · exact hsub hx
        have hlen : ((kind, name) :: v).length ≤ U.length :=
          (hnd1.subperm hsub1).length_le
        have hlt1 : U.length - ((kind, name) :: v).length < f := by
          simp only [List.length_cons] at hlen ⊢
          omega
        obtain ⟨ns, v2, hbl, hnd2, hsub2, hsup⟩ :=
          ih.2 (childSpecs O kind name) ((kind, name) :: v)
            (hclosed (kind, name) hkey) hnd1 hsub1 hlt1
        refine ⟨.node name (if kind = "cask" then "cask" else "formula") opt ns,
          v2, ?_, hnd2, hsub2, fun x hx => hsup (List.mem_cons_of_mem _ hx)⟩
        simp only [buildF, if_neg hv, hbl]
    refine ⟨hbuild, ?_⟩
    intro keys
    induction keys with
    | nil =>
      intro v _ hnd hsub _
      exact ⟨[], v, rfl, hnd, hsub, fun x hx => hx⟩
    | cons c rest ihk =>
      intro v hkeys hnd hsub hlt
      obtain ⟨d, k, o⟩ := c
      have hc : ((k, d) : String × String) ∈ U := hkeys (d, k, o) (List.mem_cons_self _ _)
      obtain ⟨n, v1, hb, hnd1, hsub1, hsup1⟩ := hbuild d k o v hc hnd hsub hlt
      have hlt1 : U.length - v1.length < f + 1 := by
        have hvl : v.length ≤ v1.length := (hnd.subperm hsup1).length_le
        omega
      obtain ⟨ns, v2, hbl, hnd2, hsub2, hsup2⟩ :=
        ihk v1 (fun c2 hc2 => hkeys c2 (List.mem_cons_of_mem _ hc2)) hnd1 hsub1 hlt1
      exact ⟨n :: ns, v2, by simp [buildList, hb, hbl], hnd2, hsub2,
        fun x hx => hsup2 (hsup1 hx)⟩

/-- The compute body of `search` truncates each kind at 20 entries. -/
theorem search_compute_bounded {α : Type} (O : SearchOracles)
    (st : MgrCacheState α SearchResult) (now : Int) (query cache_key : String) :
    boundedResult (BrewManager.search_compute O st now query cache_key).1 := by
  refine ⟨?_, ?_⟩ <;>
    simp [BrewManager.search_compute, enhanceEntries, List.length_map,
      List.length_take]

/-- The compute body of `search` preserves the cache invariant. -/
theorem search_compute_wf {α : Type} (O : SearchOracles)
    (st : MgrCacheState α SearchResult) (now : Int) (query cache_key : String)
    (hwf : searchCacheWF st.search_cache) :
    searchCacheWF (BrewManager.search_compute O st now query cache_key).2.search_cache := by
  intro p hp
  simp only [BrewManager.search_compute] at hp
  rcases List.mem_cons.mp hp with rfl | hp
  · exact search_compute_bounded O st now query cache_key
  · exact hwf p hp

/-- When the per-batch info query fails, every enriched entry carries the
    empty description. -/
theorem enhanceEntries_desc_empty (O : SearchOracles) (kind : String)
    (names : List String)
    (h : names ≠ [] → ∃ err, O.infoRun kind names = .error err) :
    ∀ entry ∈ enhanceEntries O kind names, entry.desc = "" := by
  intro entry he
  simp only [enhanceEntries, List.mem_map] at he
  obtain ⟨n, hn, rfl⟩ := he
  have hne : names ≠ [] := by
    intro h0
    rw [h0] at hn
    cases hn
  obtain ⟨err, herr⟩ := h hne
  show dictGet (bulk_info O names kind) n = ""
  have hbi : bulk_info O names kind = names.map (fun m => (m, "")) := by
    simp [bulk_info, herr, hne]
  rw [hbi]
  refine dictGet_all_empty _ _ ?_
  intro p hp
  simp only [List.mem_map] at hp
  obtain ⟨x, _, hpe⟩ := hp
  rw [← hpe]

/-! ## Claim theorems -/

/-- C1: for every nonzero-exit invocation of the one-shot Command Runner,
    the error is classified over the combined output (stripped stderr then
    stripped stdout); `permission_issue` is set iff some permission
    indicator occurs case-insensitively, `needs_sudo` iff some elevation
    indicator occurs; literal "Permission denied" sets `permission_issue`,
    literal "sudo: a password is required" sets `needs_sudo`; and with
    neither facet and empty combined output the message is the synthesized
    "Command failed" string naming the command. -/
theorem claim_C1_run_failure_classification (bp : String) (args : List String)
    (rc : Int) (so se : String) (hrc : rc ≠ 0) :
    BrewManager.run bp args (.completed rc so se) =
      .error (classifyFailure (bp :: args) so se)
  ∧ ((classifyFailure (bp :: args) so se).permission_issue = true ↔
      ∃ i ∈ permission_indicators, ciContains (combinedOutput so se) i = true)
  ∧ ((classifyFailure (bp :: args) so se).needs_sudo = true ↔
      ∃ i ∈ sudo_indicators, ciContains (combinedOutput so se) i = true)
  ∧ (plainContains (combinedOutput so se) ("Permission denied") = true →
      (classifyFailure (bp :: args) so se).permission_issue = true)
  ∧ (plainContains (combinedOutput so se) ("sudo: a password is required") = true →
      (classifyFailure (bp :: args) so se).needs_sudo = true)
  ∧ ((classifyFailure (bp :: args) so se).needs_sudo = false →
      (classifyFailure (bp :: args) so se).permission_issue = false →
      combinedOutput so se = "" →
      (classifyFailure (bp :: args) so se).message =
        "Command failed: " ++ joinSpace (bp :: args)) := by
  refine ⟨?_, ?_, ?_, ?_, ?_, ?_⟩
  · simp [BrewManager.run, hrc]
  · rw [classifyFailure_permission_issue]
    exact scanIndicators_iff _ _
  · rw [classifyFailure_needs_sudo]
    exact scanIndicators_iff _ _
  · intro h
    rw [classifyFailure_permission_issue]
    exact (scanIndicators_iff (combinedOutput so se) permission_indicators).mpr
      ⟨"Permission denied", by simp [permission_indicators],
        plainContains_to_ci _ _ h⟩
  · intro h
    rw [classifyFailure_needs_sudo]
    exact (scanIndicators_iff (combinedOutput so se) sudo_indicators).mpr
      ⟨"sudo: a password is required", by simp [sudo_indicators],
        plainContains_to_ci _ _ h⟩
  · intro hns hpi hempty
    rw [classifyFailure_needs_sudo] at hns
    rw [classifyFailure_permission_issue] at hpi
    rw [classifyFailure_message, hns, hpi, if_neg (by simp), if_pos hempty]

/-- C1 witness: evaluated at a concrete failing invocation whose stderr
    contains "Permission denied". -/
theorem claim_C1_witness :
    (classifyFailure ["brew", "install", "wget"] ("") ("Permission denied")).permission_issue
      = true :=
  (claim_C1_run_failure_classification ("brew") ["install", "wget"] 1 ("")
    ("Permission denied") (by decide)).2.2.2.1 (by decide)

/-- C2 counterexample: `leaves` with a failing live fetch and no durable
    snapshot does not propagate the error — it returns an empty list. -/
theorem claim_C2_counterexample :
    BrewManager.leaves (.error ⟨"boom", true, false⟩) none ≠
        .error ⟨"boom", true, false⟩
  ∧ BrewManager.leaves (.error ⟨"boom", true, false⟩) none = .ok [] :=
  ⟨fun h => Except.noConfusion h, rfl⟩

/-- C2 (amended): with a failing live fetch and no durable snapshot, the
    `outdated`, `installed_info` and `orphaned` fetchers propagate the
    original `BrewError` unchanged (message and both facets preserved),
    while `leaves` swallows the failure and returns an empty list. -/
theorem claim_C2_no_snapshot_propagation {α σ β : Type} (e : BrewError)
    (enrich : β → β) (st : MgrCacheState α σ) (now : Int) (ls : List String) :
    BrewManager.outdated (α := β) (.error e) none enrich = .error e
  ∧ BrewManager.installed_fetch st now (.error e) none = (.error e, st, 1)
  ∧ BrewManager.orphaned ls (.error e) none = .error e
  ∧ BrewManager.leaves (.error e) none = .ok [] :=
  ⟨rfl, rfl, rfl, rfl⟩

/-- C3: a (kind, name) key already in the visited set yields a zero-children
    stub without recursing and leaves the set unchanged; any successful
    expansion only grows the visited set and marks its own key (so a key is
    fully expanded at most once per top-level call); concretely, the cycle
    A→B→C→A produces the re-visited A as a zero-children node, and the
    diamond A→{B,C}→D produces exactly two D leaves — the first expanded
    (via B), the second a stub (via C). -/
theorem claim_C3_visited_stub_policy :
    (∀ (O : BrewInfoOracle) (fuel : Nat) (name kind : String) (opt : Bool)
        (v : List (String × String)), (kind, name) ∈ v →
        buildF O (fuel + 1) name kind opt v = some (.node name kind opt [], v))
  ∧ (∀ (O : BrewInfoOracle) (fuel : Nat) (name kind : String) (opt : Bool)
        (v : List (String × String)) (n : DepNode) (v2 : List (String × String)),
        buildF O fuel name kind opt v = some (n, v2) →
          v ⊆ v2 ∧ (kind, name) ∈ v2)
  ∧ BrewManager.dependency_tree cycleOracle 10 ("A") ("formula") =
      some (.node ("A") ("formula") false [.node ("B") ("formula") false
        [.node ("C") ("formula") false [.node ("A") ("formula") false []]]])
  ∧ BrewManager.dependency_tree diamondOracle 10 ("A") ("formula") =
      some (.node ("A") ("formula") false
        [.node ("B") ("formula") false [.node ("D") ("formula") false []],
         .node ("C") ("formula") false [.node ("D") ("formula") false []]]) := by
  refine ⟨?_, ?_, rfl, rfl⟩
  · intro O fuel name kind opt v hv
    simp [buildF, hv]
  · intro O fuel name kind opt v n v2 h
    exact buildF_subset O fuel name kind opt v n v2 h

/-- C3 witness: the stub branch evaluated at a concrete visited set. -/
theorem claim_C3_witness :
    buildF cycleOracle 3 ("A") ("formula") false [("formula", "A")] =
      some (.node ("A") ("formula") false [], [("formula", "A")]) :=
  claim_C3_visited_stub_policy.1 cycleOracle 2 ("A") ("formula") false
    [("formula", "A")] (by decide)

/-- C4: over a finite universe of packages closed under the declared
    dependency lists, the tree build terminates: any fuel exceeding the
    universe size suffices, because each expansion adds a fresh (kind, name)
    key to the visited set and already-visited keys return without
    recursing. -/
theorem claim_C4_dependency_tree_terminates (O : BrewInfoOracle)
    (U : List (String × String)) (name kind : String)
    (hroot : ((kind, name) : String × String) ∈ U)
    (hclosed : ∀ p ∈ U, ∀ c ∈ childSpecs O p.1 p.2,
      ((c.2.1, c.1) : String × String) ∈ U)
    (fuel : Nat) (hfuel : U.length < fuel) :
    (BrewManager.dependency_tree O fuel name kind).isSome = true := by
  obtain ⟨n, v2, hb, -, -, -⟩ :=
    (buildF_total O U hclosed fuel).1 name kind false [] hroot List.nodup_nil
      (fun x hx => (List.not_mem_nil x hx).elim) (by simpa using hfuel)
  simp [BrewManager.dependency_tree, hb]

/-- C4 witness: termination on the concrete circular graph A→B→C→A. -/
theorem claim_C4_witness :
    (BrewManager.dependency_tree cycleOracle 4 ("A") ("formula")).isSome = true :=
  claim_C4_dependency_tree_terminates cycleOracle
    [("formula", "A"), ("formula", "B"), ("formula", "C")] ("A") ("formula")
    (by decide) (by decide) 4 (by decide)

/-- C5: `orphaned` (on a successful fetch) keeps exactly the installed
    formulae qualifying as orphaned; a formula qualifies iff its name is in
    the leaf set, it has at least one installed record, and every record is
    dependency-installed and not installed-on-request; in particular any
    formula with an on-request record is excluded. -/
theorem claim_C5_orphaned_characterization (leavesL : List String)
    (installed : List FormulaItem) (snapshot : Option OrphanedResult) :
    BrewManager.orphaned leavesL (.ok installed) snapshot =
      .ok ⟨(installed.filter (orphanQualifies leavesL)).map mkOrphanEntry, []⟩
  ∧ (∀ item : FormulaItem, (orphanQualifies leavesL item = true ↔
      (item.name ∈ leavesL ∧ item.installed ≠ [] ∧
        ∀ r ∈ item.installed, r.installed_as_dependency = true ∧
          r.installed_on_request = false)))
  ∧ (∀ item : FormulaItem,
      (∃ r ∈ item.installed, r.installed_on_request = true) →
        orphanQualifies leavesL item = false) := by
  refine ⟨?_, ?_, ?_⟩
  · simp [BrewManager.orphaned, orphanedFormulae_eq_filter]
  · intro item
    simp [orphanQualifies, allDependencyOnly_iff, and_assoc]
  · intro item hex
    obtain ⟨r, hr, hreq⟩ := hex
    cases hq : orphanQualifies leavesL item with
    | false => rfl
    | true =>
      simp only [orphanQualifies, Bool.and_eq_true] at hq
      have hall := (allDependencyOnly_iff item.installed).mp hq.2
      have hfalse := (hall r hr).2
      rw [hreq] at hfalse
      exact Bool.noConfusion hfalse

/-- C5 witness: a leaf formula with a single on-request installed record is
    excluded. -/
theorem claim_C5_witness :
    orphanQualifies ["zlib"] ⟨"zlib", none, none, none, [⟨true, true⟩]⟩ = false :=
  (claim_C5_orphaned_characterization ["zlib"] [] none).2.2
    ⟨"zlib", none, none, none, [⟨true, true⟩]⟩
    ⟨⟨true, true⟩, List.mem_cons_self _ _, rfl⟩

/-- C6: with a present and TTL-fresh memory-tier entry, `installed_info`
    returns the stored result, leaves the state unchanged and performs no
    live fetch; immediately after `invalidate_caches` the next call performs
    exactly one live fetch, and a successful one repopulates the memory
    tier; the constructor default TTL is 30 seconds. -/
theorem claim_C6_memory_tier_ttl {α σ : Type} (ttl now : Int)
    (st : MgrCacheState α σ) (live : Except BrewError α) (snapshot : Option α) :
    (∀ c : α, st.installed_cache = some c →
        BrewManager.cache_valid ttl now st.installed_cache_time = true →
        BrewManager.installed_info ttl st now live snapshot = (.ok c, st, 0))
  ∧ (BrewManager.installed_info ttl (BrewManager.invalidate_caches st) now
      live snapshot).2.2 = 1
  ∧ (∀ d : α, live = .ok d →
      BrewManager.installed_info ttl (BrewManager.invalidate_caches st) now
          live snapshot =
        (.ok d, MgrCacheState.mk (some d) now [], 1))
  ∧ default_cache_ttl = 30 := by
  refine ⟨?_, ?_, ?_, rfl⟩
  · intro c hc hvalid
    simp [BrewManager.installed_info, hc, hvalid]
  · cases live with
    | ok d =>
      simp [BrewManager.installed_info, BrewManager.invalidate_caches,
        BrewManager.installed_fetch]
    | error e =>
      cases snapshot with
      | some c =>
        simp [BrewManager.installed_info, BrewManager.invalidate_caches,
          BrewManager.installed_fetch]
      | none =>
        simp [BrewManager.installed_info, BrewManager.invalidate_caches,
          BrewManager.installed_fetch]
  · intro d hd
    subst hd
    simp [BrewManager.installed_info, BrewManager.invalidate_caches,
      BrewManager.installed_fetch]

/-- C6 witness: a fresh cached value (age 10 under TTL 30) is returned with
    no live fetch even though the live fetch would fail. -/
theorem claim_C6_witness :
    BrewManager.installed_info (α := Nat) (σ := Nat) 30
        (MgrCacheState.mk (some 5) 0 []) 10 (.error ⟨"down", false, false⟩)
        none =
      (.ok 5, MgrCacheState.mk (some 5) 0 [], 0) :=
  (claim_C6_memory_tier_ttl 30 10 (MgrCacheState.mk (some 5) 0 [])
    (.error ⟨"down", false, false⟩) none).1 5 rfl (by decide)

/-- C7 counterexample: on output setting both facets ("sudo: a password is
    required" matches a permission indicator and an elevation indicator),
    the classifier message carries the elevation marker
    "Administrative privileges required:", not the claimed permission-issue
    marker. -/
theorem claim_C7_counterexample :
    (classifyFailure ["brew", "install", "foo"] ("")
        ("sudo: a password is required")).needs_sudo = true
  ∧ (classifyFailure ["brew", "install", "foo"] ("")
        ("sudo: a password is required")).permission_issue = true
  ∧ (classifyFailure ["brew", "install", "foo"] ("")
        ("sudo: a password is required")).message =
      "Administrative privileges required: sudo: a password is required"
  ∧ listStartsWith (classifyFailure ["brew", "install", "foo"] ("")
        ("sudo: a password is required")).message.data
      ("Permission issue detected:").data = false :=
  ⟨by decide, by decide, by decide, by decide⟩

/-- C7 (amended): when both facets are true on a nonzero-exit one-shot run,
    the message carries the elevation prefix (the permission scan runs
    first, but the message synthesis prefers `needs_sudo`), while both
    boolean facets remain set on the raised `BrewError`. -/
theorem claim_C7_both_facets_elevation_message (bp : String) (args : List String)
    (rc : Int) (so se : String) (hrc : rc ≠ 0) (e : BrewError)
    (he : BrewManager.run bp args (.completed rc so se) = .error e)
    (hns : e.needs_sudo = true) (hpi : e.permission_issue = true) :
    e.message = "Administrative privileges required: " ++ combinedOutput so se
  ∧ e.needs_sudo = true ∧ e.permission_issue = true := by
  have he2 : e = classifyFailure (bp :: args) so se := by
    simp only [BrewManager.run, if_pos hrc, Except.error.injEq] at he
    exact he.symm
  subst he2
  refine ⟨?_, hns, hpi⟩
  rw [classifyFailure_needs_sudo] at hns
  rw [classifyFailure_message, hns]
  simp

/-- C7 witness: the amended statement applied at the both-facets input. -/
theorem claim_C7_witness :
    (classifyFailure ["brew", "upgrade"] ("")
        ("sudo: a password is required")).message =
      "Administrative privileges required: " ++
        combinedOutput ("") ("sudo: a password is required") :=
  (claim_C7_both_facets_elevation_message ("brew") ["upgrade"] 1 ("")
    ("sudo: a password is required") (by decide)
    (classifyFailure ["brew", "upgrade"] ("") ("sudo: a password is required"))
    rfl (by decide) (by decide)).1

/-- C8: a timed-out one-shot invocation raises a `BrewError` whose message
    identifies the timed-out command and whose two facets are both false
    (the constructor defaults); the configured timeout of the deployed manager is
    600 seconds. -/
theorem claim_C8_timeout_error (bp : String) (args : List String) :
    BrewManager.run bp args .timedOut =
      .error ⟨"Command timed out: " ++ joinSpace (bp :: args), false, false⟩
  ∧ deployed_timeout_seconds = 600 :=
  ⟨rfl, rfl⟩

/-- C10: for every query, `search` returns at most 20 formula entries and at
    most 20 cask entries (given that every previously cached result does
    too, which every stored result satisfies by construction), the cache
    invariant is preserved, and when the description enrichment fails for a
    batch of a kind on the compute path, every entry of that kind carries the
    empty description. -/
theorem claim_C10_search_shape {α : Type} (ttl now : Int) (O : SearchOracles)
    (st : MgrCacheState α SearchResult) (query : String)
    (hwf : searchCacheWF st.search_cache) :
    boundedResult (BrewManager.search ttl O st now query).1
  ∧ searchCacheWF (BrewManager.search ttl O st now query).2.search_cache
  ∧ (lookupAssoc st.search_cache (pyLower (pyStrip query)) = none →
      (∀ names : List String, names ≠ [] →
        ∃ err, O.infoRun ("formula") names = .error err) →
      ∀ entry ∈ (BrewManager.search ttl O st now query).1.formulae,
        entry.desc = "")
  ∧ (lookupAssoc st.search_cache (pyLower (pyStrip query)) = none →
      (∀ names : List String, names ≠ [] →
        ∃ err, O.infoRun ("cask") names = .error err) →
      ∀ entry ∈ (BrewManager.search ttl O st now query).1.casks,
        entry.desc = "") := by
  cases hl : lookupAssoc st.search_cache (pyLower (pyStrip query)) with
  | some p =>
    obtain ⟨ts, cached⟩ := p
    by_cases hv : BrewManager.cache_valid ttl now ts = true
    · have hres : BrewManager.search ttl O st now query = (cached, st) := by
        simp [BrewManager.search, hl, hv]
      obtain ⟨k2, hk2⟩ := lookupAssoc_mem st.search_cache _ ts cached hl
      refine ⟨?_, ?_, ?_, ?_⟩
      · rw [hres]
        exact hwf (k2, ts, cached) hk2
      · rw [hres]
        exact hwf
      · intro h0
        exact absurd h0 (by simp)
      · intro h0
        exact absurd h0 (by simp)
    · have hres : BrewManager.search ttl O st now query =
          BrewManager.search_compute O st now query (pyLower (pyStrip query)) := by
        simp [BrewManager.search, hl, hv]
      refine ⟨?_, ?_, ?_, ?_⟩
      · rw [hres]; exact search_compute_bounded O st now query _
      · rw [hres]; exact search_compute_wf O st now query _ hwf
      · intro h0
        exact absurd h0 (by simp)
      · intro h0
        exact absurd h0 (by simp)
  | none =>
    have hres : BrewManager.search ttl O st now query =
        BrewManager.search_compute O st now query (pyLower (pyStrip query)) := by
      simp [BrewManager.search, hl]
    refine ⟨?_, ?_, ?_, ?_⟩
    · rw [hres]; exact search_compute_bounded O st now query _
    · rw [hres]; exact search_compute_wf O st now query _ hwf
    · intro _ hfail entry hentry
      rw [hres] at hentry
      exact enhanceEntries_desc_empty O ("formula") _
        (fun hne => hfail _ hne) entry hentry
    · intro _ hfail entry hentry
      rw [hres] at hentry
      exact enhanceEntries_desc_empty O ("cask") _
        (fun hne => hfail _ hne) entry hentry

/-- C10 witness: a concrete search with failing enrichment on an empty
    cache. -/
theorem claim_C10_witness :
    boundedResult (BrewManager.search (α := Nat) 30 plainSearchOracles
      (MgrCacheState.mk none 0 []) 0 ("wget")).1 :=
  (claim_C10_search_shape 30 0 plainSearchOracles (MgrCacheState.mk none 0 [])
    ("wget") (fun p hp => absurd hp (List.not_mem_nil p))).1
